import Mathlib

/-! Verification of the font-resolution and line-composition core of the rio
terminal (sugarloaf crate).  The functions `FontContext::map_cluster`,
`FontContext::lookup_for_best_font`, `find_font`, `find_font_path` and
`FontLibraryData::load` from `src/sugarloaf/src/font/mod.rs`, and
`Elementary::update` (with its helpers `get_font_id` and the per-cell loop
body) from `src/sugarloaf/src/sugarloaf/compositors/elementary.rs`, are
embedded shallowly.  File input and the system font index become explicit
environment functions, `std::time::Instant` becomes a natural-number clock
passed to each call, f32 arithmetic is modelled over `ℚ`, and the swash
charmap mapping of a cluster is abstracted by a per-face coverage predicate
(`covers c = true` standing for `cluster.map(|ch| charmap.map(ch)) != Status::Discard`). -/

namespace Rio

/-- A character cluster as the resolver sees it: its characters, and the
swash emoji classification queried by `cluster.info().is_emoji()`
(font/mod.rs line 118). -/
structure Cluster where
  chars : List Char
  is_emoji : Bool
  deriving DecidableEq

/-- The embedded font binaries named in `find_font` (font/mod.rs lines
611-651) and `FontLibraryData::load` (line 362).  The byte contents are
external data; only their identities matter here. -/
inductive EmbeddedFont where
  | cascadiaExtraLightItalic
  | cascadiaLightItalic
  | cascadiaSemiLightItalic
  | cascadiaItalic
  | cascadiaSemiBoldItalic
  | cascadiaBoldItalic
  | cascadiaExtraLight
  | cascadiaLight
  | cascadiaSemiLight
  | cascadiaRegular
  | cascadiaSemiBold
  | cascadiaBold
  | symbolsNerdFontMono
  deriving DecidableEq

/-- Identity of a loaded face: an embedded binary compiled into the program,
or bytes obtained from the environment (a system font file parsed by
`FontData::from_data`).  This plays the role of the swash `CacheKey` by
which `FontData` equality is defined (font/mod.rs lines 446-451). -/
inductive FontSource where
  | embedded (e : EmbeddedFont)
  | system (bytes : Nat)
  deriving DecidableEq

/-- `FontData` (font/mod.rs lines 430-541).  The raw buffer, table offset and
charmap proxy are abstracted: `covers` is the materialized charmap test on a
cluster (`status != Status::Discard`), `synth` the synthesis descriptor
computed at load time, `source` the identity of the underlying bytes. -/
structure FontData where
  covers : Cluster → Bool
  synth : Nat
  source : FontSource

instance : Inhabited FontData :=
  ⟨⟨fun _ => false, 0, FontSource.embedded EmbeddedFont.cascadiaRegular⟩⟩

/-- `FontDataRef` (font/mod.rs lines 233-237): a file-system path (abstract
id) plus the emoji flag, for a face that is loaded lazily. -/
structure FontDataRef where
  path : Nat
  is_emoji : Bool
  deriving DecidableEq

/-- The parts of `FontLibraryData` (font/mod.rs lines 239-244) the resolver
reads: the eagerly loaded faces in slot order and the lazy registry. -/
structure FontLibraryData where
  inner : List FontData
  lazy_inner : List FontDataRef

/-- The ambient file system and font parser used by `load_from_data_ref` and
`find_font`: `openRead p` is the combined outcome of `File::open` plus
`read_to_end` on path `p` (abstract byte-buffer id on success), `parse b`
the outcome of `FontData::from_data` on buffer `b`. -/
structure Env where
  openRead : Nat → Option Nat
  parse : Nat → Option FontData

/-- `load_from_data_ref` (font/mod.rs lines 680-700): open and read the
file at the ref's path, then parse; any failure yields `none`. -/
def load_from_data_ref (env : Env) (data_ref : FontDataRef) : Option FontData :=
  match env.openRead data_ref.path with
  | some bytes => env.parse bytes
  | none => none

/-- `HashMap::insert` on the association-list model of `FontContext.cached`:
the new binding shadows and erases any previous binding of the key. -/
def cacheInsert (m : List (Nat × FontData)) (k : Nat) (v : FontData) :
    List (Nat × FontData) :=
  (k, v) :: m.filter (fun p => p.1 != k)

/-- `HashMap::remove` on the association-list model. -/
def cacheRemove (m : List (Nat × FontData)) (k : Nat) : List (Nat × FontData) :=
  m.filter (fun p => p.1 != k)

/-- `FontContext` (font/mod.rs lines 42-47): the pull-through cache, the
active emoji slot id and the instant of its last use (natural-number clock). -/
structure FontContext where
  cached : List (Nat × FontData)
  emoji : Option Nat
  emoji_last_usage : Option Nat

/-- `swash::Style` as read from `style.font_attrs.2` (font/mod.rs line 86). -/
inductive SwashStyle where
  | normal
  | italic
  | oblique
  deriving DecidableEq, BEq

/-- The fields of `FragmentStyle` that `map_cluster` reads: `font_attrs` is
the (stretch, weight, style) triple; `font_attrs.1 == Weight::BOLD` compares
the weight to 700 and `font_attrs.2 == Style::Italic` tests the slant. -/
structure FragmentStyle where
  stretch : Nat
  weight : Nat
  fstyle : SwashStyle

def FONT_ID_REGULAR : Nat := 0
def FONT_ID_ITALIC : Nat := 1
def FONT_ID_BOLD : Nat := 2
def FONT_ID_BOLD_ITALIC : Nat := 3

/-- Indexing `library[font_id]` (the `Index` impl, font/mod.rs lines
376-382).  Rust panics out of bounds; theorems that depend on an index add
the catalog-size hypothesis under which the access is in bounds. -/
def libGet (library : FontLibraryData) (font_id : Nat) : FontData :=
  library.inner.getD font_id default

/-- `FontContext::lookup_for_best_font` (font/mod.rs lines 56-74): linear
scan over the loaded faces in slot order, returning the first whose charmap
does not discard the cluster. -/
def lookup_for_best_font (cluster : Cluster) (library : FontLibraryData) :
    Option Nat :=
  library.inner.findIdx? (fun font => font.covers cluster)

/-- Result of one `map_cluster` call: the returned `Option<usize>`, the
resolver state after the call, the value written through `*synth` (`none`
when left untouched), and whether `lookup_for_best_font` was invoked
(the scan-count instrumentation named by the spec). -/
structure MapResult where
  slot : Option Nat
  ctx : FontContext
  synth : Option Nat
  used_lookup : Bool

/-- The bold/italic branch of `map_cluster` (font/mod.rs lines 88-116),
entered with the directly mapped slot id: consult the cache, otherwise the
catalog (pulling the face into the cache when the charmap test passes), and
return the slot in every case. -/
def emphasisStep (ctx : FontContext) (cluster : Cluster)
    (library : FontLibraryData) (font_id : Nat) : MapResult :=
  match ctx.cached.lookup font_id with
  | some font_data =>
    if font_data.covers cluster then
      ⟨some font_id, ctx, some font_data.synth, false⟩
    else
      ⟨some font_id, ctx, none, false⟩
  | none =>
    let font_data := libGet library font_id
    if font_data.covers cluster then
      ⟨some font_id,
       { ctx with cached := cacheInsert ctx.cached font_id font_data },
       some font_data.synth, false⟩
    else
      ⟨some font_id, ctx, none, false⟩

/-- The cached-emoji hit path (font/mod.rs lines 119-131): when an active
emoji slot exists and its face is in the cache, refresh the last-usage
instant and return — the returned id is the `font_id` local, still
`FONT_ID_REGULAR` at this point. -/
def emojiHit (ctx : FontContext) (cluster : Cluster) (now : Nat) :
    Option MapResult :=
  match ctx.emoji with
  | some emoji_id =>
    match ctx.cached.lookup emoji_id with
    | some font_data =>
      some ⟨some FONT_ID_REGULAR,
            { ctx with emoji_last_usage := some now },
            if font_data.covers cluster then some font_data.synth else none,
            false⟩
    | none => none
  | none => none

/-- The lazy emoji load path (font/mod.rs lines 133-157): find the first
emoji-flagged lazy ref, load it from disk; on success the returned id is
`binding.len()`, and the face is installed as the active emoji slot only
when the charmap test passes. -/
def emojiLoad (ctx : FontContext) (cluster : Cluster)
    (library : FontLibraryData) (env : Env) (now : Nat) : Option MapResult :=
  match library.lazy_inner.find? (fun r => r.is_emoji) with
  | some data_ref =>
    match load_from_data_ref env data_ref with
    | some font_data =>
      let font_id := library.inner.length
      if font_data.covers cluster then
        some ⟨some font_id,
              ⟨cacheInsert ctx.cached font_id font_data, some font_id, some now⟩,
              some font_data.synth, false⟩
      else
        some ⟨some font_id, ctx, none, false⟩
    | none => none
  | none => none

/-- The whole emoji block (font/mod.rs lines 118-158): taken only for
emoji-classified clusters; the hit path shadows the load path; `none` means
control falls through to eviction and regular resolution. -/
def emojiStep (ctx : FontContext) (cluster : Cluster)
    (library : FontLibraryData) (env : Env) (now : Nat) : Option MapResult :=
  if cluster.is_emoji then
    match emojiHit ctx cluster now with
    | some r => some r
    | none => emojiLoad ctx cluster library env now
  else none

/-- The idle-eviction check (font/mod.rs lines 160-169): reached only after
the emoji block fell through; drops the active emoji face once idle strictly
longer than 4 seconds. -/
def evictStep (ctx : FontContext) (now : Nat) : FontContext :=
  match ctx.emoji_last_usage with
  | some emoji_last_usage =>
    if 4 < now - emoji_last_usage then
      match ctx.emoji with
      | some emoji_id => ⟨cacheRemove ctx.cached emoji_id, none, none⟩
      | none => ctx
    else ctx
  | none => ctx

/-- The trailing cache refresh (font/mod.rs lines 190-192): re-insert the
resolved face only when the slot is already cached. -/
def cacheRefresh (ctx : FontContext) (library : FontLibraryData)
    (font_id : Nat) : FontContext :=
  if (ctx.cached.lookup font_id).isSome then
    { ctx with cached := cacheInsert ctx.cached font_id (libGet library font_id) }
  else ctx

/-- Regular resolution (font/mod.rs lines 171-194): test the regular slot's
charmap; on discard run `lookup_for_best_font`; `none` when no loaded face
covers the cluster. -/
def regularStep (ctx : FontContext) (cluster : Cluster)
    (library : FontLibraryData) : MapResult :=
  let font_data := libGet library FONT_ID_REGULAR
  if font_data.covers cluster then
    ⟨some FONT_ID_REGULAR, cacheRefresh ctx library FONT_ID_REGULAR,
     some font_data.synth, false⟩
  else
    match lookup_for_best_font cluster library with
    | some found_font_id =>
      ⟨some found_font_id, cacheRefresh ctx library found_font_id,
       some (libGet library found_font_id).synth, true⟩
    | none => ⟨none, ctx, none, true⟩

/-- `FontContext::map_cluster` (font/mod.rs lines 77-195).  Early returns of
the source become the `emphasisStep` branch and the `some` case of
`emojiStep`; eviction precedes regular resolution exactly as in the source. -/
def map_cluster (ctx : FontContext) (cluster : Cluster)
    (library : FontLibraryData) (env : Env) (style : FragmentStyle)
    (now : Nat) : MapResult :=
  let is_italic := style.fstyle == SwashStyle.italic
  let is_bold := style.weight == 700
  if is_italic || is_bold then
    emphasisStep ctx cluster library
      (if is_bold && is_italic then FONT_ID_BOLD_ITALIC
       else if is_bold then FONT_ID_BOLD
       else if is_italic then FONT_ID_ITALIC
       else FONT_ID_REGULAR)
  else
    match emojiStep ctx cluster library env now with
    | some r => r
    | none => regularStep (evictStep ctx now) cluster library

/-- `FontLibraryData::font_by_id` (font/mod.rs lines 276-279) and the
`Index<usize>` impl (lines 376-382): both index `inner` directly; `none`
models the Rust panic on an out-of-bounds slot. -/
def font_by_id (library : FontLibraryData) (font_id : Nat) : Option FontData :=
  library.inner.get? font_id

/-- The requested style string of a font spec.  In the source it is an
`Option<String>`, lowercased and compared against the literal italic name;
every other string behaves as normal, so the comparison collapses to this
two-valued type. -/
inductive FontStyleSpec where
  | normal
  | italic
  deriving DecidableEq

/-- `SugarloafFont` (fields as used by font/mod.rs: family, weight, style).
Families are abstract ids. -/
structure SugarloafFont where
  family : Nat
  weight : Option Nat
  style : Option FontStyleSpec
  deriving DecidableEq

/-- Modelled from the spec: `SugarloafFont::is_default_family` lives in
fonts.rs, which is not under src/.  The spec says the system query is the
path taken for a configured family; the default family (id 0) skips the
query and uses the embedded face directly. -/
def defaultFamilyId : Nat := 0

/-- Modelled from the spec: the default-family test of fonts.rs, as the
comparison of the family id with the default id. -/
def is_default_family (font_spec : SugarloafFont) : Bool :=
  font_spec.family == defaultFamilyId

/-- A query against the system font index (`loader::Query`,
font/mod.rs lines 584-589). -/
structure FontQuery where
  family : Nat
  weight : Nat
  style : FontStyleSpec
  deriving DecidableEq

/-- `loader::Source` as matched by `find_font` (lines 593-595): only a
file source is usable. -/
inductive Source where
  | file (path : Nat)
  | binary
  deriving DecidableEq

/-- The system font index (`loader::Database`): `query` resolves a
family/weight/style query, `query_family` the family-only query built with
`Query::default()` by `find_font_path` (loader.rs is not under src/, so its
default weight and style are abstracted into a separate function), and
`face_source` maps a face id to its source and index. -/
structure Database where
  query : FontQuery → Option Nat
  query_family : Nat → Option Nat
  face_source : Nat → Option (Source × Nat)

/-- The embedded-face selection table of `find_font` (font/mod.rs lines
631-652), matching on the requested weight and style. -/
def selectEmbedded (weight : Nat) (style : FontStyleSpec) : EmbeddedFont :=
  match style with
  | FontStyleSpec.italic =>
    if weight == 100 then EmbeddedFont.cascadiaExtraLightItalic
    else if weight == 200 then EmbeddedFont.cascadiaLightItalic
    else if weight == 300 then EmbeddedFont.cascadiaSemiLightItalic
    else if weight == 400 then EmbeddedFont.cascadiaItalic
    else if weight == 500 then EmbeddedFont.cascadiaItalic
    else if weight == 600 then EmbeddedFont.cascadiaSemiBoldItalic
    else if weight == 700 then EmbeddedFont.cascadiaSemiBoldItalic
    else if weight == 800 then EmbeddedFont.cascadiaBoldItalic
    else if weight == 900 then EmbeddedFont.cascadiaBoldItalic
    else EmbeddedFont.cascadiaItalic
  | FontStyleSpec.normal =>
    if weight == 100 then EmbeddedFont.cascadiaExtraLight
    else if weight == 200 then EmbeddedFont.cascadiaLight
    else if weight == 300 then EmbeddedFont.cascadiaSemiLight
    else if weight == 400 then EmbeddedFont.cascadiaRegular
    else if weight == 500 then EmbeddedFont.cascadiaRegular
    else if weight == 600 then EmbeddedFont.cascadiaSemiBold
    else if weight == 700 then EmbeddedFont.cascadiaSemiBold
    else if weight == 800 then EmbeddedFont.cascadiaBold
    else if weight == 900 then EmbeddedFont.cascadiaBold
    else EmbeddedFont.cascadiaRegular

/-- `FontData::from_slice` on an embedded binary: the parsed face carries
the embedded identity.  Its charmap content is external binary data and is
abstracted (no claim here depends on it). -/
def embeddedFace (e : EmbeddedFont) : FontData :=
  ⟨fun _ => true, 0, FontSource.embedded e⟩

/-- The common fall-through tail of `find_font` (font/mod.rs lines 631-654):
the embedded face selected by weight and style, the `true` fallback marker,
and whatever diagnostic was recorded on the way. -/
def find_font_fallback (weight : Nat) (style : FontStyleSpec)
    (not_found : Option SugarloafFont) : FontData × Bool × Option SugarloafFont :=
  (embeddedFace (selectEmbedded weight style), true, not_found)

/-- `find_font` (font/mod.rs lines 557-655).  A non-default family is queried
against the index; a successful query leads to open, read and parse, where a
parse error returns the embedded regular face with a diagnostic, while a
missing file source or failed open/read falls through with no diagnostic;
a failed query falls through with a diagnostic. -/
def find_font (db : Database) (env : Env) (font_spec : SugarloafFont) :
    FontData × Bool × Option SugarloafFont :=
  let weight := font_spec.weight.getD 400
  let style := font_spec.style.getD FontStyleSpec.normal
  if is_default_family font_spec then
    find_font_fallback weight style none
  else
    match db.query ⟨font_spec.family, weight, style⟩ with
    | some id =>
      match db.face_source id with
      | some (Source.file path, _index) =>
        match env.openRead path with
        | some bytes =>
          match env.parse bytes with
          | some d => (d, false, none)
          | none =>
            (embeddedFace EmbeddedFont.cascadiaRegular, true, some font_spec)
        | none => find_font_fallback weight style none
      | _ => find_font_fallback weight style none
    | none => find_font_fallback weight style (some font_spec)

/-- `find_font_path` (font/mod.rs lines 657-678): family-only query; the
path of a file source, otherwise `none`. -/
def find_font_path (db : Database) (font_family : Nat) : Option Nat :=
  match db.query_family font_family with
  | some id =>
    match db.face_source id with
    | some (Source.file path, _index) => some path
    | _ => none
  | none => none

/-- Modelled from the spec: `fallbacks::external_fallbacks` (fallbacks.rs is
not under src/) yields a fixed list of family names; the source flags an
entry as emoji when the name contains the emoji marker, which becomes the
`is_emoji` field here. -/
structure Fallback where
  family : Nat
  is_emoji : Bool
  deriving DecidableEq

/-- `SugarloafFonts` (fields as used by `load`): the optional global family
overwrite, the four style specs, and the extra user fonts. -/
structure SugarloafFonts where
  family : Option Nat
  regular : SugarloafFont
  italic : SugarloafFont
  bold : SugarloafFont
  bold_italic : SugarloafFont
  extras : List SugarloafFont

/-- The family overwrite at the top of `load` (font/mod.rs lines 286-291):
a configured `fonts.family` replaces the family of all four style specs. -/
def overwriteFamily (fonts : SugarloafFonts) : SugarloafFonts :=
  match fonts.family with
  | some fam =>
    { fonts with
      regular := { fonts.regular with family := fam },
      bold := { fonts.bold with family := fam },
      bold_italic := { fonts.bold_italic with family := fam },
      italic := { fonts.italic with family := fam } }
  | none => fonts

/-- The state `load` accumulates: the `inner` and `lazy_inner` fields of
`FontLibraryData` it pushes to, and the returned not-found diagnostics. -/
structure LoadAcc where
  inner : List FontData
  lazy_inner : List FontDataRef
  errs : List SugarloafFont

/-- Push a `find_font` result: its face onto `inner`, its optional
diagnostic onto the list (font/mod.rs lines 293-297 and the like). -/
def pushFound (acc : LoadAcc) (r : FontData × Bool × Option SugarloafFont) :
    LoadAcc :=
  { acc with inner := acc.inner ++ [r.1], errs := acc.errs ++ r.2.2.toList }

/-- One iteration of the fallback loop (font/mod.rs lines 317-342): an
emoji-flagged family is looked up by path only and registered lazily (or
dropped silently when the path query fails); any other family is loaded
eagerly like a style spec. -/
def loadFallbackStep (db : Database) (env : Env) (acc : LoadAcc)
    (fb : Fallback) : LoadAcc :=
  if fb.is_emoji then
    match find_font_path db fb.family with
    | some path => { acc with lazy_inner := acc.lazy_inner ++ [⟨path, true⟩] }
    | none => acc
  else
    pushFound acc (find_font db env ⟨fb.family, none, none⟩)

/-- One iteration of the extras loop (font/mod.rs lines 344-359). -/
def loadExtraStep (db : Database) (env : Env) (acc : LoadAcc)
    (extra_font : SugarloafFont) : LoadAcc :=
  pushFound acc (find_font db env extra_font)

/-- `FontLibraryData::load` (font/mod.rs lines 282-365), starting from the
fresh default library its callers construct: the four style faces in order
regular, italic, bold, bold-italic, then the fallback loop, then the extras,
then the embedded symbol face appended unconditionally. -/
def load (db : Database) (env : Env) (fonts0 : SugarloafFonts)
    (fallbacks : List Fallback) : LoadAcc :=
  let fonts := overwriteFamily fonts0
  let acc0 : LoadAcc := ⟨[], [], []⟩
  let acc1 := pushFound acc0 (find_font db env fonts.regular)
  let acc2 := pushFound acc1 (find_font db env fonts.italic)
  let acc3 := pushFound acc2 (find_font db env fonts.bold)
  let acc4 := pushFound acc3 (find_font db env fonts.bold_italic)
  let acc5 := fallbacks.foldl (loadFallbackStep db env) acc4
  let acc6 := fonts.extras.foldl (loadExtraStep db env) acc5
  { acc6 with
    inner := acc6.inner ++ [embeddedFace EmbeddedFont.symbolsNerdFontMono] }

/-- `PxScale` (f32 pair modelled over ℚ). -/
structure PxScale where
  x : ℚ
  y : ℚ
  deriving DecidableEq

/-- An rgba colour (`[f32; 4]` modelled over ℚ). -/
structure Color where
  r : ℚ
  g : ℚ
  b : ℚ
  a : ℚ
  deriving DecidableEq

/-- `Rect` as pushed by the compositor: position, colour, size. -/
structure Rect where
  position : ℚ × ℚ
  color : Color
  size : ℚ × ℚ
  deriving DecidableEq

/-- The style flags of a cell read by the update loop (elementary.rs lines
232-238). -/
structure FragStyleFlags where
  is_bold_italic : Bool
  is_bold : Bool
  is_italic : Bool
  deriving DecidableEq

/-- `FragmentCursor` (matched at elementary.rs lines 299-323). -/
inductive FragmentCursor where
  | block (color : Color)
  | caret (color : Color)
  | underline (color : Color)
  | disabled
  deriving DecidableEq

/-- `FragmentDecoration` (matched at elementary.rs lines 325-343). -/
inductive FragmentDecoration where
  | underline
  | strikethrough
  | disabled
  deriving DecidableEq

/-- A grid cell (`Fragment`) as the update loop reads it: content character,
run-length repeat count, colours, style flags, cursor and decoration. -/
structure Fragment where
  content : Char
  repeated : Nat
  foreground_color : Color
  background_color : Color
  style : FragStyleFlags
  cursor : FragmentCursor
  decoration : FragmentDecoration

/-- `tree.layout.dimensions`: the single-cell pixel dimensions and the
display scale factor. -/
structure SugarDimensions where
  width : ℚ
  height : ℚ
  scale : ℚ

/-- `tree.layout.style`: the screen offset of the text area (and the text
scale, unused by the embedded paths). -/
structure SugarloafStyle where
  screen_position : ℚ × ℚ
  text_scale : ℚ

/-- The fields of `tree.layout` the update loop reads. -/
structure SugarTreeLayout where
  width : ℚ
  height : ℚ
  dimensions : SugarDimensions
  style : SugarloafStyle
  line_height : ℚ
  font_size : ℚ

/-- `SugarTree` as consumed by `Elementary::update`. -/
structure SugarTree where
  layout : SugarTreeLayout

/-- `CachedSugar` (elementary.rs lines 22-27): per-character resolved font
slot, display width and optional scale override. -/
structure CachedSugar where
  font_id : Nat
  char_width : ℚ
  px_scale : Option PxScale
  deriving DecidableEq

/-- The single glyph run the loop pushes per cell (`OwnedSection` with its
one `OwnedText`): screen position, bounds, run text, scale, font slot and
colour.  The fixed bottom/left alignment layout is implicit. -/
structure OwnedSection where
  screen_position : ℚ × ℚ
  bounds : ℚ × ℚ
  text : String
  scale : PxScale
  font_id : Nat
  color : Color
  deriving DecidableEq

/-- `Elementary` (elementary.rs lines 41-52): the per-character metadata
cache, the accumulated rectangles and glyph sections, the running y cursor
and row counter, and the font list used for glyph presence tests
(each face abstracted to its `glyph_id` function, 0 meaning missing). -/
structure Elementary where
  sugar_cache : List (Char × CachedSugar)
  rects : List Rect
  sections : List OwnedSection
  text_y : ℚ
  current_row : Nat
  fonts : List (Char → Nat)

/-- Modelled from the spec: the symbol slot constant imported by
elementary.rs from `crate::font`, whose defining revision is not under src/.
The spec places symbol, emoji, unicode and icon faces after the four style
slots; the concrete values are arbitrary but distinct, and no claim proved
here depends on them. -/
def FONT_ID_SYMBOL : Nat := 4

/-- Modelled from the spec: the emoji slot constant (see `FONT_ID_SYMBOL`). -/
def FONT_ID_EMOJIS : Nat := 5

/-- Modelled from the spec: the unicode slot constant (see `FONT_ID_SYMBOL`). -/
def FONT_ID_UNICODE : Nat := 6

/-- Modelled from the spec: the icon slot constant (see `FONT_ID_SYMBOL`). -/
def FONT_ID_ICONS : Nat := 7

/-- `Elementary::get_font_id` (elementary.rs lines 116-187): answer from the
per-character cache when possible; otherwise scan the font list for the
first face with a glyph for the character, classify the display width via
the unicode-width function `uw` (`content.width().unwrap_or(1)`), attach the
scale override for icon, unicode, symbol and emoji slots, and cache the
result keyed by the character alone. -/
def get_font_id (st : Elementary) (uw : Char → Option Nat) (sugar : Fragment)
    (tree : SugarTree) : CachedSugar × Elementary :=
  match st.sugar_cache.lookup sugar.content with
  | some cached_sugar => (cached_sugar, st)
  | none =>
    let font_id := (st.fonts.findIdx? (fun f => f sugar.content != 0)).getD
      FONT_ID_REGULAR
    let char_width : ℚ := (((uw sugar.content).getD 1 : Nat) : ℚ)
    let px_scale : Option PxScale :=
      if font_id == FONT_ID_ICONS then
        some ⟨tree.layout.dimensions.width, tree.layout.dimensions.height⟩
      else if font_id == FONT_ID_UNICODE || font_id == FONT_ID_SYMBOL then
        some ⟨tree.layout.dimensions.width * char_width,
              tree.layout.dimensions.height⟩
      else if font_id == FONT_ID_EMOJIS then
        some ⟨tree.layout.dimensions.width * 2, tree.layout.dimensions.height⟩
      else none
    let cached_sugar : CachedSugar := ⟨font_id, char_width, px_scale⟩
    (cached_sugar,
     { st with sugar_cache := (sugar.content, cached_sugar) :: st.sugar_cache })

/-- The cursor overlay match of the update loop (elementary.rs lines
299-323): block spans the whole (repeat-compressed) cell, caret a bar of 2%
of the cell width, underline a bar of 10% of the cell width positioned at
the baseline offset `font_size - 2.5`; a disabled cursor emits nothing. -/
def cursor_rects (cursor : FragmentCursor) (sx sy wb q h fs : ℚ) : List Rect :=
  match cursor with
  | FragmentCursor.block cursor_color =>
    [⟨(sx, sy), cursor_color, (wb * q, h)⟩]
  | FragmentCursor.caret cursor_color =>
    [⟨(sx, sy), cursor_color, ((wb * (0.02 : ℚ)) * q, h)⟩]
  | FragmentCursor.underline cursor_color =>
    [⟨(sx, sy + fs - (2.5 : ℚ)), cursor_color, ((wb * (0.1 : ℚ)) * q, h)⟩]
  | FragmentCursor.disabled => []

/-- The decoration match of the update loop (elementary.rs lines 325-343):
underline and strikethrough bars in the foreground colour, of 2.5% of the
unscaled cell height. -/
def decoration_rects (dec : FragmentDecoration) (fg : Color)
    (sx sy wb q h fs : ℚ) : List Rect :=
  match dec with
  | FragmentDecoration.underline =>
    [⟨(sx, sy + fs - 1), fg, (wb * q, h * (0.025 : ℚ))⟩]
  | FragmentDecoration.strikethrough =>
    [⟨(sx, sy + fs / 2), fg, (wb * q, h * (0.025 : ℚ))⟩]
  | FragmentDecoration.disabled => []

/-- The local bindings of one iteration of the update loop (elementary.rs
lines 223-291), computed from the state at loop entry: emphasis slot
substitution for regular-slot characters, wide-character advance doubling,
scale override, repeat-compressed text run, and the derived positions. -/
structure CellLocals where
  cached : CachedSugar
  font_id : Nat
  sugar_char_width : ℚ
  add_pos_x : ℚ
  scale : PxScale
  width_bound : ℚ
  quantity : ℚ
  unscaled_h : ℚ
  section_pos : ℚ × ℚ
  scaled_pos : ℚ × ℚ
  text : String

/-- Computes the loop-body locals for one cell (elementary.rs lines
223-291).  `get_font_id` only adds a cache entry, so reading the
pre-call state is equivalent. -/
def cellLocals (tree : SugarTree) (uw : Char → Option Nat) (st : Elementary)
    (x : ℚ) (frag : Fragment) : CellLocals :=
  let mod_pos_y := tree.layout.style.screen_position.2
  let mod_text_y := tree.layout.dimensions.height
  let sugar_x := tree.layout.dimensions.width
  let sugar_width := tree.layout.dimensions.width * tree.layout.dimensions.scale * 2
  let unscaled_h := tree.layout.dimensions.height / tree.layout.dimensions.scale
  let rect_pos_x := tree.layout.style.screen_position.1 + x
  let cached := (get_font_id st uw frag tree).1
  let font_id :=
    if cached.font_id == FONT_ID_REGULAR then
      if frag.style.is_bold_italic then FONT_ID_BOLD_ITALIC
      else if frag.style.is_bold then FONT_ID_BOLD
      else if frag.style.is_italic then FONT_ID_ITALIC
      else cached.font_id
    else cached.font_id
  let sugar_char_width := if 1 < cached.char_width then cached.char_width else 1
  let add_pos_x := if 1 < cached.char_width then sugar_x + sugar_x else sugar_x
  let scale := cached.px_scale.getD
    ⟨tree.layout.dimensions.height, tree.layout.dimensions.height⟩
  let rect_pos_y := st.text_y + mod_pos_y
  let width_bound := sugar_width * sugar_char_width
  let text :=
    if frag.repeated == 0 then String.mk [frag.content]
    else String.mk (List.replicate (frag.repeated + 1) frag.content)
  ⟨cached, font_id, sugar_char_width, add_pos_x, scale, width_bound,
   ((frag.repeated : ℚ) + 1), unscaled_h,
   (rect_pos_x, mod_text_y + st.text_y + mod_pos_y),
   (rect_pos_x / tree.layout.dimensions.scale,
    rect_pos_y / tree.layout.dimensions.scale),
   text⟩

/-- The background rectangle pushed for one cell (elementary.rs lines
293-297): positioned at the scaled cell origin, in the cell's background
colour, spanning `width_bound * quantity` by the unscaled cell height. -/
def cellBg (tree : SugarTree) (uw : Char → Option Nat) (st : Elementary)
    (x : ℚ) (frag : Fragment) : Rect :=
  let L := cellLocals tree uw st x frag
  ⟨L.scaled_pos, frag.background_color, (L.width_bound * L.quantity, L.unscaled_h)⟩

/-- The glyph section pushed for one cell (elementary.rs lines 267-284). -/
def cellSection (tree : SugarTree) (uw : Char → Option Nat) (st : Elementary)
    (x : ℚ) (frag : Fragment) : OwnedSection :=
  let L := cellLocals tree uw st x frag
  ⟨L.section_pos, (tree.layout.width, tree.layout.height), L.text, L.scale,
   L.font_id, frag.foreground_color⟩

/-- The cursor overlay rectangles pushed for one cell (elementary.rs lines
299-323), instantiating `cursor_rects` at the cell's loop locals. -/
def cellOverlay (tree : SugarTree) (uw : Char → Option Nat) (st : Elementary)
    (x : ℚ) (frag : Fragment) : List Rect :=
  let L := cellLocals tree uw st x frag
  cursor_rects frag.cursor L.scaled_pos.1 L.scaled_pos.2 L.width_bound
    L.quantity L.unscaled_h tree.layout.font_size

/-- The decoration rectangles pushed for one cell (elementary.rs lines
325-343), instantiating `decoration_rects` at the cell's loop locals. -/
def cellDecoration (tree : SugarTree) (uw : Char → Option Nat) (st : Elementary)
    (x : ℚ) (frag : Fragment) : List Rect :=
  let L := cellLocals tree uw st x frag
  decoration_rects frag.decoration frag.foreground_color L.scaled_pos.1
    L.scaled_pos.2 L.width_bound L.quantity L.unscaled_h tree.layout.font_size

/-- The x-cursor advance of one cell, `add_pos_x * quantity`
(elementary.rs line 367). -/
def cellAdvance (tree : SugarTree) (uw : Char → Option Nat) (st : Elementary)
    (x : ℚ) (frag : Fragment) : ℚ :=
  let L := cellLocals tree uw st x frag
  L.add_pos_x * L.quantity

/-- One iteration of the update loop (elementary.rs lines 223-368): resolve
the cell through the character cache, push exactly one glyph section, then
the background rectangle followed by the cursor overlay and decoration
rectangles, and advance the x cursor by the cell's total width. -/
def processCell (tree : SugarTree) (uw : Char → Option Nat)
    (acc : Elementary × ℚ) (frag : Fragment) : Elementary × ℚ :=
  let st := acc.1
  let st1 := (get_font_id st uw frag tree).2
  ({ st1 with
      sections := st1.sections ++ [cellSection tree uw st acc.2 frag],
      rects := st1.rects ++
        (cellBg tree uw st acc.2 frag ::
          (cellOverlay tree uw st acc.2 frag ++
           cellDecoration tree uw st acc.2 frag)) },
   acc.2 + cellAdvance tree uw st acc.2 frag)

/-- `Elementary::update` for one line (elementary.rs lines 206-372): seed
the y cursor on first use, run the loop over the line's live cells, then
advance row counter and y cursor by one (scaled) line height. -/
def update (st : Elementary) (tree : SugarTree) (uw : Char → Option Nat)
    (cells : List Fragment) : Elementary :=
  let st0 := if st.text_y == 0 then
    { st with text_y := tree.layout.style.screen_position.2 } else st
  let r := cells.foldl (processCell tree uw) (st0, 0)
  { r.1 with
    current_row := r.1.current_row + 1,
    text_y := r.1.text_y +
      tree.layout.dimensions.height * tree.layout.line_height }

/-- A charmap covering every cluster (sample data for concrete runs). -/
def coversAll : Cluster → Bool := fun _ => true

/-- A charmap covering no cluster (sample data for concrete runs). -/
def coversNone : Cluster → Bool := fun _ => false

/-- A sample emoji face, as parsed from system bytes. -/
def emojiFace : FontData := ⟨coversAll, 7, FontSource.system 9⟩

/-- A sample text face whose charmap covers nothing. -/
def plainFace : FontData := ⟨coversNone, 1, FontSource.embedded EmbeddedFont.cascadiaRegular⟩

/-- A sample fallback face that covers every cluster. -/
def fullFace : FontData := ⟨coversAll, 3, FontSource.system 4⟩

/-- A sample emoji-classified cluster. -/
def cEmoji : Cluster := ⟨['e'], true⟩

/-- A sample non-emoji cluster. -/
def cPlain : Cluster := ⟨['z'], false⟩

/-- The fresh resolver state (`FontContext::default`). -/
def ctxEmpty : FontContext := ⟨[], none, none⟩

/-- An environment on which every file operation fails. -/
def envNone : Env := ⟨fun _ => none, fun _ => none⟩

/-- An environment on which path 5 reads to buffer 9, which parses to the
sample emoji face. -/
def envEmoji : Env :=
  ⟨fun p => if p == 5 then some 9 else none,
   fun b => if b == 9 then some emojiFace else none⟩

/-- A five-slot catalog whose style slots cover nothing and whose fifth
face covers everything; no lazy faces. -/
def lib4 : FontLibraryData :=
  ⟨[plainFace, plainFace, plainFace, plainFace, fullFace], []⟩

/-- A one-slot catalog with one lazy emoji ref at path 5. -/
def lib1 : FontLibraryData := ⟨[plainFace], [⟨5, true⟩]⟩

/-- A regular-weight upright style request. -/
def styleRegular : FragmentStyle := ⟨0, 400, SwashStyle.normal⟩

/-- A bold upright style request. -/
def styleBold : FragmentStyle := ⟨0, 700, SwashStyle.normal⟩

/-- A resolver state holding an active cached emoji face at slot 10. -/
def ctxEmojiHit : FontContext := ⟨[(10, emojiFace)], some 10, some 0⟩

/-- A resolver state whose active emoji face at slot 5 was last used at
instant 0 (stale at any call instant past 4). -/
def ctxStale : FontContext := ⟨[(5, emojiFace)], some 5, some 0⟩

/-- A bold-italic font spec for a configured (non-default) family. -/
def s6 : SugarloafFont := ⟨1, some 800, some FontStyleSpec.italic⟩

/-- An index on which every query matches face 3, whose source is file 7. -/
def db6 : Database :=
  ⟨fun _ => some 3, fun _ => none, fun _ => some (Source.file 7, 0)⟩

/-- An environment where every file reads to buffer 11 and nothing parses. -/
def env6 : Env := ⟨fun _ => some 11, fun _ => none⟩

/-- A configured-family spec used to exercise the query-miss branch. -/
def sQ : SugarloafFont := ⟨2, some 400, none⟩

/-- An index on which every query fails. -/
def dbNone : Database := ⟨fun _ => none, fun _ => none, fun _ => none⟩

/-- A font configuration with no overwrite and no extras. -/
def fontsPlain : SugarloafFonts := ⟨none, sQ, sQ, sQ, sQ, []⟩

theorem lookup_cons_eq (a : Nat) (v : FontData) (t : List (Nat × FontData))
    (j : Nat) :
    List.lookup j ((a, v) :: t) = if j == a then some v else List.lookup j t := by
  simp only [List.lookup_cons]
  cases h : j == a <;> simp [h]

theorem lookup_filter_ne (m : List (Nat × FontData)) (k j : Nat) (h : j ≠ k) :
    (m.filter (fun p => p.1 != k)).lookup j = m.lookup j := by
  induction m with
  | nil => rfl
  | cons p t ih =>
    obtain ⟨a, v⟩ := p
    simp only [List.filter_cons]
    by_cases hak : a = k
    · subst hak
      have h1 : ((a, v).1 != a) = false := by simp
      rw [h1]
      simp only [Bool.false_eq_true, if_false, lookup_cons_eq,
        beq_false_of_ne h, ih]
    · have h1 : ((a, v).1 != k) = true := by simpa using hak
      rw [h1]
      simp only [if_true, lookup_cons_eq]
      cases hja : j == a <;> simp [hja, ih]

theorem lookup_cacheInsert (m : List (Nat × FontData)) (k : Nat) (v : FontData)
    (j : Nat) :
    (cacheInsert m k v).lookup j = if j = k then some v else m.lookup j := by
  unfold cacheInsert
  rw [lookup_cons_eq]
  by_cases h : j = k
  · simp [h]
  · simp [beq_false_of_ne h, h, lookup_filter_ne m k j h]

theorem lookup_cacheRemove_self (m : List (Nat × FontData)) (k : Nat) :
    (cacheRemove m k).lookup k = none := by
  unfold cacheRemove
  induction m with
  | nil => rfl
  | cons p t ih =>
    obtain ⟨a, v⟩ := p
    simp only [List.filter_cons]
    by_cases hak : a = k
    · have h1 : ((a, v).1 != k) = false := by simp [hak]
      rw [h1]
      simpa using ih
    · have h1 : ((a, v).1 != k) = true := by simpa using hak
      rw [h1]
      simp only [if_true, lookup_cons_eq, beq_false_of_ne (Ne.symm hak)]
      simpa using ih

theorem emphasisStep_slot (ctx : FontContext) (cluster : Cluster)
    (library : FontLibraryData) (font_id : Nat) :
    (emphasisStep ctx cluster library font_id).slot = some font_id ∧
    (emphasisStep ctx cluster library font_id).used_lookup = false ∧
    (emphasisStep ctx cluster library font_id).ctx.emoji = ctx.emoji ∧
    (emphasisStep ctx cluster library font_id).ctx.emoji_last_usage =
      ctx.emoji_last_usage := by
  unfold emphasisStep
  split
  · split <;> exact ⟨rfl, rfl, rfl, rfl⟩
  · dsimp only
    split <;> exact ⟨rfl, rfl, rfl, rfl⟩

theorem emojiHit_cases (ctx : FontContext) (cluster : Cluster) (now : Nat)
    (r : MapResult) (h : emojiHit ctx cluster now = some r) :
    r.used_lookup = false ∧ r.ctx.cached = ctx.cached ∧
    r.slot = some FONT_ID_REGULAR ∧ r.ctx.emoji = ctx.emoji ∧
    r.ctx.emoji_last_usage = some now := by
  unfold emojiHit at h
  split at h
  · split at h
    · injection h with h
      subst h
      exact ⟨rfl, rfl, rfl, rfl, rfl⟩
    · exact Option.noConfusion h
  · exact Option.noConfusion h

theorem emojiLoad_cases (ctx : FontContext) (cluster : Cluster)
    (library : FontLibraryData) (env : Env) (now : Nat) (r : MapResult)
    (h : emojiLoad ctx cluster library env now = some r) :
    r.used_lookup = false ∧
    ∀ e, (ctx.cached.lookup e).isSome = true →
      (r.ctx.cached.lookup e).isSome = true := by
  unfold emojiLoad at h
  split at h
  · split at h
    · split at h
      · injection h with h
        subst h
        refine ⟨rfl, fun e he => ?_⟩
        dsimp only
        rw [lookup_cacheInsert]
        by_cases hek : e = library.inner.length <;> simp [hek, he]
      · injection h with h
        subst h
        exact ⟨rfl, fun e he => he⟩
    · exact Option.noConfusion h
  · exact Option.noConfusion h

theorem emojiStep_cases (ctx : FontContext) (cluster : Cluster)
    (library : FontLibraryData) (env : Env) (now : Nat) (r : MapResult)
    (h : emojiStep ctx cluster library env now = some r) :
    r.used_lookup = false ∧
    ∀ e, (ctx.cached.lookup e).isSome = true →
      (r.ctx.cached.lookup e).isSome = true := by
  unfold emojiStep at h
  split at h
  · split at h
    · rename_i r0 hh
      injection h with h
      subst h
      obtain ⟨hu, hc, _, _, _⟩ := emojiHit_cases ctx cluster now r0 hh
      exact ⟨hu, fun e he => by rw [hc]; exact he⟩
    · exact emojiLoad_cases ctx cluster library env now r h
  · exact Option.noConfusion h

theorem cacheRefresh_lookup_none (ctx : FontContext) (library : FontLibraryData)
    (font_id e : Nat) (h : ctx.cached.lookup e = none) :
    (cacheRefresh ctx library font_id).cached.lookup e = none := by
  unfold cacheRefresh
  split
  · rename_i hs
    dsimp only
    rw [lookup_cacheInsert]
    by_cases hef : e = font_id
    · subst hef
      rw [h] at hs
      simp at hs
    · simp [hef, h]
  · exact h

theorem cacheRefresh_fields (ctx : FontContext) (library : FontLibraryData)
    (font_id : Nat) :
    (cacheRefresh ctx library font_id).emoji = ctx.emoji ∧
    (cacheRefresh ctx library font_id).emoji_last_usage =
      ctx.emoji_last_usage := by
  unfold cacheRefresh
  split
  · exact ⟨rfl, rfl⟩
  · exact ⟨rfl, rfl⟩

theorem regularStep_emoji_fields (ctx : FontContext) (cluster : Cluster)
    (library : FontLibraryData) :
    (regularStep ctx cluster library).ctx.emoji = ctx.emoji ∧
    (regularStep ctx cluster library).ctx.emoji_last_usage =
      ctx.emoji_last_usage := by
  unfold regularStep
  dsimp only
  split
  · exact cacheRefresh_fields ctx library FONT_ID_REGULAR
  · split
    · rename_i found hf
      exact cacheRefresh_fields ctx library found
    · exact ⟨rfl, rfl⟩

theorem regularStep_lookup_none (ctx : FontContext) (cluster : Cluster)
    (library : FontLibraryData) (e : Nat) (h : ctx.cached.lookup e = none) :
    (regularStep ctx cluster library).ctx.cached.lookup e = none := by
  unfold regularStep
  dsimp only
  split
  · exact cacheRefresh_lookup_none ctx library FONT_ID_REGULAR e h
  · split
    · rename_i found hf
      exact cacheRefresh_lookup_none ctx library found e h
    · exact h

theorem regularStep_lookup_flag (ctx : FontContext) (cluster : Cluster)
    (library : FontLibraryData) :
    (regularStep ctx cluster library).used_lookup =
      !(libGet library FONT_ID_REGULAR).covers cluster := by
  unfold regularStep
  dsimp only
  split
  · rename_i hc
    simp [hc]
  · rename_i hc
    rw [Bool.not_eq_true] at hc
    split <;> simp [hc]

theorem evictStep_stale (ctx : FontContext) (now t e : Nat)
    (ht : ctx.emoji_last_usage = some t) (hnow : 4 < now - t)
    (he : ctx.emoji = some e) :
    evictStep ctx now = ⟨cacheRemove ctx.cached e, none, none⟩ := by
  simp [evictStep, ht, he, hnow]

theorem map_cluster_eq_emph (ctx : FontContext) (cluster : Cluster)
    (library : FontLibraryData) (env : Env) (style : FragmentStyle) (now : Nat)
    (hc : (style.fstyle == SwashStyle.italic || style.weight == 700) = true) :
    map_cluster ctx cluster library env style now =
      emphasisStep ctx cluster library
        (if (style.weight == 700) && (style.fstyle == SwashStyle.italic)
         then FONT_ID_BOLD_ITALIC
         else if style.weight == 700 then FONT_ID_BOLD
         else if style.fstyle == SwashStyle.italic then FONT_ID_ITALIC
         else FONT_ID_REGULAR) := by
  unfold map_cluster
  simp only [hc, if_true]

theorem map_cluster_eq_emojiStep (ctx : FontContext) (cluster : Cluster)
    (library : FontLibraryData) (env : Env) (style : FragmentStyle) (now : Nat)
    (r : MapResult)
    (hc : (style.fstyle == SwashStyle.italic || style.weight == 700) = false)
    (hs : emojiStep ctx cluster library env now = some r) :
    map_cluster ctx cluster library env style now = r := by
  unfold map_cluster
  simp only [hc, Bool.false_eq_true, if_false, hs]

theorem map_cluster_eq_regular (ctx : FontContext) (cluster : Cluster)
    (library : FontLibraryData) (env : Env) (style : FragmentStyle) (now : Nat)
    (hc : (style.fstyle == SwashStyle.italic || style.weight == 700) = false)
    (hs : emojiStep ctx cluster library env now = none) :
    map_cluster ctx cluster library env style now =
      regularStep (evictStep ctx now) cluster library := by
  unfold map_cluster
  simp only [hc, Bool.false_eq_true, if_false, hs]

theorem get_font_id_state (st : Elementary) (uw : Char → Option Nat)
    (frag : Fragment) (tree : SugarTree) :
    ((get_font_id st uw frag tree).2.rects = st.rects) ∧
    ((get_font_id st uw frag tree).2.sections = st.sections) := by
  unfold get_font_id
  split <;> exact ⟨rfl, rfl⟩

theorem processCell_rects (tree : SugarTree) (uw : Char → Option Nat)
    (st : Elementary) (x : ℚ) (frag : Fragment) :
    (processCell tree uw (st, x) frag).1.rects =
      st.rects ++
        (cellBg tree uw st x frag ::
          (cellOverlay tree uw st x frag ++ cellDecoration tree uw st x frag)) := by
  unfold processCell
  dsimp only
  rw [(get_font_id_state st uw frag tree).1]

theorem processCell_sections (tree : SugarTree) (uw : Char → Option Nat)
    (st : Elementary) (x : ℚ) (frag : Fragment) :
    (processCell tree uw (st, x) frag).1.sections =
      st.sections ++ [cellSection tree uw st x frag] := by
  unfold processCell
  dsimp only
  rw [(get_font_id_state st uw frag tree).2]

theorem foldl_fallback_inner (db : Database) (env : Env) (fbs : List Fallback)
    (acc : LoadAcc) :
    (fbs.foldl (loadFallbackStep db env) acc).inner =
      acc.inner ++ (fbs.filter (fun fb => !fb.is_emoji)).map
        (fun fb => (find_font db env ⟨fb.family, none, none⟩).1) := by
  induction fbs generalizing acc with
  | nil => simp
  | cons fb t ih =>
    rw [List.foldl_cons, ih]
    by_cases hfb : fb.is_emoji
    · unfold loadFallbackStep
      simp only [hfb, if_true]
      split <;> simp [List.filter_cons, hfb]
    · unfold loadFallbackStep
      simp only [hfb, Bool.false_eq_true, if_false]
      simp [pushFound, List.filter_cons, hfb]

theorem foldl_fallback_lazy (db : Database) (env : Env) (fbs : List Fallback)
    (acc : LoadAcc) :
    (fbs.foldl (loadFallbackStep db env) acc).lazy_inner =
      acc.lazy_inner ++ fbs.filterMap
        (fun fb => if fb.is_emoji then
          (find_font_path db fb.family).map
            (fun p => (⟨p, true⟩ : FontDataRef)) else none) := by
  induction fbs generalizing acc with
  | nil => simp
  | cons fb t ih =>
    rw [List.foldl_cons, ih]
    by_cases hfb : fb.is_emoji
    · unfold loadFallbackStep
      simp only [hfb, if_true]
      split <;> rename_i hp <;> simp [List.filterMap_cons, hfb, hp]
    · unfold loadFallbackStep
      simp only [hfb, Bool.false_eq_true, if_false]
      simp [pushFound, List.filterMap_cons, hfb]

theorem foldl_extra_inner (db : Database) (env : Env)
    (extras : List SugarloafFont) (acc : LoadAcc) :
    (extras.foldl (loadExtraStep db env) acc).inner =
      acc.inner ++ extras.map (fun e => (find_font db env e).1) := by
  induction extras generalizing acc with
  | nil => simp
  | cons e t ih =>
    rw [List.foldl_cons, ih]
    simp [loadExtraStep, pushFound]

theorem foldl_extra_lazy (db : Database) (env : Env)
    (extras : List SugarloafFont) (acc : LoadAcc) :
    (extras.foldl (loadExtraStep db env) acc).lazy_inner = acc.lazy_inner := by
  induction extras generalizing acc with
  | nil => rfl
  | cons e t ih =>
    rw [List.foldl_cons, ih]
    rfl

theorem load_inner_eq (db : Database) (env : Env) (fonts : SugarloafFonts)
    (fbs : List Fallback) :
    (load db env fonts fbs).inner =
      [(find_font db env (overwriteFamily fonts).regular).1,
       (find_font db env (overwriteFamily fonts).italic).1,
       (find_font db env (overwriteFamily fonts).bold).1,
       (find_font db env (overwriteFamily fonts).bold_italic).1]
      ++ (fbs.filter (fun fb => !fb.is_emoji)).map
          (fun fb => (find_font db env ⟨fb.family, none, none⟩).1)
      ++ (overwriteFamily fonts).extras.map (fun e => (find_font db env e).1)
      ++ [embeddedFace EmbeddedFont.symbolsNerdFontMono] := by
  unfold load
  dsimp only
  rw [foldl_extra_inner, foldl_fallback_inner]
  simp [pushFound]

theorem load_lazy_eq (db : Database) (env : Env) (fonts : SugarloafFonts)
    (fbs : List Fallback) :
    (load db env fonts fbs).lazy_inner =
      fbs.filterMap
        (fun fb => if fb.is_emoji then
          (find_font_path db fb.family).map
            (fun p => (⟨p, true⟩ : FontDataRef)) else none) := by
  unfold load
  dsimp only
  rw [foldl_extra_lazy, foldl_fallback_lazy]
  simp [pushFound]

/-- C1: at a state whose active cached emoji face sits at slot 10, a
`map_cluster` call on an emoji cluster takes the cached-hit path and does
refresh the last-used instant, but returns slot 0 (`FONT_ID_REGULAR`)
instead of the active emoji slot 10: the `font_id` local is still its
initial value at the `return Some(font_id)` of font/mod.rs line 129, while
the load path (line 154) returns the emoji slot id.  The code contradicts
the spec and its own load path. -/
theorem map_cluster_emoji_hit_returns_regular :
    ctxEmojiHit.emoji = some 10 ∧
    (ctxEmojiHit.cached.lookup 10).isSome = true ∧
    (map_cluster ctxEmojiHit cEmoji lib4 envNone styleRegular 3).slot =
      some FONT_ID_REGULAR ∧
    (map_cluster ctxEmojiHit cEmoji lib4 envNone styleRegular 3).slot ≠
      some 10 ∧
    (map_cluster ctxEmojiHit cEmoji lib4 envNone
      styleRegular 3).ctx.emoji_last_usage = some 3 := by
  refine ⟨rfl, rfl, rfl, ?_, rfl⟩
  decide

/-- C2: the returned slot identity does depend on the resolver cache state.
From the cold state, the emoji cluster resolves through the lazy-load path
to slot 1 (the catalog length); the identical call against the state that
first call produced hits the warmed emoji cache and returns slot 0, with
the cluster, style and catalog unchanged. -/
theorem map_cluster_slot_depends_on_cache_state :
    (map_cluster ctxEmpty cEmoji lib1 envEmoji styleRegular 0).slot = some 1 ∧
    (map_cluster (map_cluster ctxEmpty cEmoji lib1 envEmoji styleRegular 0).ctx
        cEmoji lib1 envEmoji styleRegular 0).slot = some 0 ∧
    (1 : Nat) ≠ 0 := by
  refine ⟨rfl, rfl, ?_⟩
  decide

/-- C3 counterexample: with the regular style (a member of the claim's style
set) and a non-emoji cluster absent from the regular face's charmap,
`map_cluster` does perform the generic ordered fallback scan
(`lookup_for_best_font`), which finds slot 4. -/
theorem map_cluster_regular_scan_counterexample :
    (map_cluster ctxEmpty cPlain lib4 envNone styleRegular 0).used_lookup =
      true ∧
    (map_cluster ctxEmpty cPlain lib4 envNone styleRegular 0).slot = some 4 ∧
    lookup_for_best_font cPlain lib4 = some 4 := ⟨rfl, rfl, rfl⟩

/-- C3 (amended): requests selecting bold and/or italic resolve by direct
slot mapping and never reach `lookup_for_best_font`; the scan runs exactly
when the request selects neither bold nor italic, the emoji branch returns
no slot, and the regular slot's charmap test discards the cluster. -/
theorem map_cluster_scan_scope (ctx : FontContext) (cluster : Cluster)
    (library : FontLibraryData) (env : Env) (style : FragmentStyle) (now : Nat)
    (hlib : 4 ≤ library.inner.length) :
    ((style.fstyle == SwashStyle.italic || style.weight == 700) = true →
      (map_cluster ctx cluster library env style now).used_lookup = false) ∧
    ((map_cluster ctx cluster library env style now).used_lookup = true ↔
      ((style.fstyle == SwashStyle.italic || style.weight == 700) = false ∧
       emojiStep ctx cluster library env now = none ∧
       (libGet library FONT_ID_REGULAR).covers cluster = false)) := by
  constructor
  · intro h
    rw [map_cluster_eq_emph ctx cluster library env style now h]
    exact (emphasisStep_slot _ _ _ _).2.1
  · constructor
    · intro h
      cases hc : (style.fstyle == SwashStyle.italic || style.weight == 700)
        with
      | true =>
        rw [map_cluster_eq_emph ctx cluster library env style now hc] at h
        rw [(emphasisStep_slot _ _ _ _).2.1] at h
        exact absurd h (by decide)
      | false =>
        cases hs : emojiStep ctx cluster library env now with
        | some r =>
          rw [map_cluster_eq_emojiStep ctx cluster library env style now r hc
            hs] at h
          rw [(emojiStep_cases ctx cluster library env now r hs).1] at h
          exact absurd h (by decide)
        | none =>
          rw [map_cluster_eq_regular ctx cluster library env style now hc hs,
            regularStep_lookup_flag] at h
          exact ⟨rfl, rfl, by simpa using h⟩
    · intro h
      obtain ⟨hc, hs, hcov⟩ := h
      rw [map_cluster_eq_regular ctx cluster library env style now hc hs,
        regularStep_lookup_flag, hcov]
      rfl

/-- C3 witness: a concrete bold call never reaches the fallback scan, while
a concrete regular call whose cluster the regular face discards (and whose
emoji branch returns nothing) does reach it. -/
theorem map_cluster_scan_scope_witness :
    (map_cluster ctxEmpty cPlain lib4 envNone styleBold 0).used_lookup =
      false ∧
    (map_cluster ctxEmpty cPlain lib4 envNone styleRegular 0).used_lookup =
      true := by
  constructor
  · exact (map_cluster_scan_scope ctxEmpty cPlain lib4 envNone styleBold 0
      (by decide)).1 (by decide)
  · exact (map_cluster_scan_scope ctxEmpty cPlain lib4 envNone styleRegular 0
      (by decide)).2.mpr ⟨rfl, rfl, rfl⟩

/-- C4 counterexample: a bold-style call at instant 100 against a state
whose active emoji face has been idle since instant 0 (far beyond the
4-second threshold) returns from the bold branch without evicting: the
active marker, timestamp and cached face all survive the call, contradicting
the claim that every call performs the idle-eviction check. -/
theorem map_cluster_bold_skips_eviction :
    4 < (100 : Nat) - 0 ∧
    ctxStale.emoji_last_usage = some 0 ∧
    ctxStale.emoji = some 5 ∧
    (map_cluster ctxStale cPlain lib4 envNone styleBold 100).ctx.emoji =
      some 5 ∧
    (map_cluster ctxStale cPlain lib4 envNone
      styleBold 100).ctx.emoji_last_usage = some 0 ∧
    ((map_cluster ctxStale cPlain lib4 envNone
      styleBold 100).ctx.cached.lookup 5).isSome = true := by
  refine ⟨?_, rfl, rfl, rfl, rfl, rfl⟩
  decide

/-- C4 (amended): the idle-eviction check runs only on calls that fall
through to the regular-resolution path.  A bold/italic call leaves the
active-emoji marker and timestamp untouched; a call returning from the emoji
branch (hit or load) never drops a cached face; a call that reaches the
regular path with the active emoji face idle strictly longer than 4 seconds
removes that face from the cache and clears the marker and timestamp. -/
theorem map_cluster_eviction_scope (ctx : FontContext) (cluster : Cluster)
    (library : FontLibraryData) (env : Env) (style : FragmentStyle) (now : Nat)
    (hlib : 4 ≤ library.inner.length) :
    ((style.fstyle == SwashStyle.italic || style.weight == 700) = true →
      (map_cluster ctx cluster library env style now).ctx.emoji = ctx.emoji ∧
      (map_cluster ctx cluster library env style now).ctx.emoji_last_usage =
        ctx.emoji_last_usage) ∧
    (∀ r, emojiStep ctx cluster library env now = some r →
      ∀ e, (ctx.cached.lookup e).isSome = true →
        (r.ctx.cached.lookup e).isSome = true) ∧
    ((style.fstyle == SwashStyle.italic || style.weight == 700) = false →
      emojiStep ctx cluster library env now = none →
      ∀ t e, ctx.emoji_last_usage = some t → 4 < now - t → ctx.emoji = some e →
        (map_cluster ctx cluster library env style now).ctx.emoji = none ∧
        (map_cluster ctx cluster library env style now).ctx.emoji_last_usage =
          none ∧
        (map_cluster ctx cluster library env style now).ctx.cached.lookup e =
          none) := by
  refine ⟨?_, ?_, ?_⟩
  · intro h
    rw [map_cluster_eq_emph ctx cluster library env style now h]
    exact ⟨(emphasisStep_slot _ _ _ _).2.2.1, (emphasisStep_slot _ _ _ _).2.2.2⟩
  · intro r hr e he
    exact (emojiStep_cases ctx cluster library env now r hr).2 e he
  · intro hc hs t e ht hnow he
    rw [map_cluster_eq_regular ctx cluster library env style now hc hs,
      evictStep_stale ctx now t e ht hnow he]
    refine ⟨?_, ?_, ?_⟩
    · simpa using
        (regularStep_emoji_fields ⟨cacheRemove ctx.cached e, none, none⟩
          cluster library).1
    · simpa using
        (regularStep_emoji_fields ⟨cacheRemove ctx.cached e, none, none⟩
          cluster library).2
    · exact regularStep_lookup_none _ cluster library e
        (lookup_cacheRemove_self ctx.cached e)

/-- C4 witness: a concrete regular-path call at instant 100 with the emoji
face idle since instant 0 does evict it. -/
theorem map_cluster_eviction_scope_witness :
    (map_cluster ctxStale cPlain lib4 envNone styleRegular 100).ctx.emoji =
      none ∧
    (map_cluster ctxStale cPlain lib4 envNone
      styleRegular 100).ctx.emoji_last_usage = none := by
  have h := (map_cluster_eviction_scope ctxStale cPlain lib4 envNone
    styleRegular 100 (by decide)).2.2 (by decide) rfl 0 5 rfl (by decide) rfl
  exact ⟨h.1, h.2.1⟩

/-- C5: a request selecting bold and/or italic returns `some` of exactly the
mapped slot (italic 1, bold 2, bold-italic 3), for every cluster and cache
state, whether or not that slot's charmap contains the cluster. -/
theorem map_cluster_emphasis_slot (ctx : FontContext) (cluster : Cluster)
    (library : FontLibraryData) (env : Env) (style : FragmentStyle) (now : Nat)
    (hlib : 4 ≤ library.inner.length)
    (h : (style.fstyle == SwashStyle.italic || style.weight == 700) = true) :
    (map_cluster ctx cluster library env style now).slot =
      some (if (style.weight == 700) && (style.fstyle == SwashStyle.italic)
            then FONT_ID_BOLD_ITALIC
            else if style.weight == 700 then FONT_ID_BOLD
            else if style.fstyle == SwashStyle.italic then FONT_ID_ITALIC
            else FONT_ID_REGULAR) := by
  rw [map_cluster_eq_emph ctx cluster library env style now h]
  exact (emphasisStep_slot _ _ _ _).1

/-- C5 witness: a concrete bold request on a catalog whose bold face misses
the cluster still returns slot 2. -/
theorem map_cluster_emphasis_slot_witness :
    (map_cluster ctxEmpty cPlain lib4 envNone styleBold 0).slot =
      some FONT_ID_BOLD :=
  map_cluster_emphasis_slot ctxEmpty cPlain lib4 envNone styleBold 0
    (by decide) (by decide)

/-- C6 counterexample: for a configured bold-italic spec whose system query
and file read succeed but whose parse fails, `find_font` returns the
embedded regular face (recording the diagnostic), not the face selected by
the requested weight 800 and italic style, which would be the bold-italic
embedded face. -/
theorem find_font_parse_failure_counterexample :
    is_default_family s6 = false ∧
    db6.query ⟨1, 800, FontStyleSpec.italic⟩ = some 3 ∧
    db6.face_source 3 = some (Source.file 7, 0) ∧
    env6.openRead 7 = some 11 ∧
    env6.parse 11 = none ∧
    (find_font db6 env6 s6).1.source =
      FontSource.embedded EmbeddedFont.cascadiaRegular ∧
    (find_font db6 env6 s6).2.2 = some s6 ∧
    selectEmbedded 800 FontStyleSpec.italic = EmbeddedFont.cascadiaBoldItalic ∧
    EmbeddedFont.cascadiaBoldItalic ≠ EmbeddedFont.cascadiaRegular := by
  refine ⟨rfl, rfl, rfl, rfl, rfl, rfl, rfl, rfl, ?_⟩
  decide

/-- C6 (amended): `find_font` is total, but the failure modes differ.  A
failed query returns the weight/style-selected embedded face and records the
diagnostic; a file that cannot be opened or read returns the weight/style
selection with no diagnostic; a parse failure returns the embedded regular
face (regardless of weight and style) with the diagnostic; and `load` always
populates at least the four style slots. -/
theorem find_font_fallback_behavior (db : Database) (env : Env)
    (s : SugarloafFont) (id path n bytes : Nat) (fonts : SugarloafFonts)
    (fbs : List Fallback) :
    (is_default_family s = false →
      db.query ⟨s.family, s.weight.getD 400,
        s.style.getD FontStyleSpec.normal⟩ = none →
      find_font db env s =
        (embeddedFace (selectEmbedded (s.weight.getD 400)
          (s.style.getD FontStyleSpec.normal)), true, some s)) ∧
    (is_default_family s = false →
      db.query ⟨s.family, s.weight.getD 400,
        s.style.getD FontStyleSpec.normal⟩ = some id →
      db.face_source id = some (Source.file path, n) →
      env.openRead path = none →
      find_font db env s =
        (embeddedFace (selectEmbedded (s.weight.getD 400)
          (s.style.getD FontStyleSpec.normal)), true, none)) ∧
    (is_default_family s = false →
      db.query ⟨s.family, s.weight.getD 400,
        s.style.getD FontStyleSpec.normal⟩ = some id →
      db.face_source id = some (Source.file path, n) →
      env.openRead path = some bytes →
      env.parse bytes = none →
      find_font db env s =
        (embeddedFace EmbeddedFont.cascadiaRegular, true, some s)) ∧
    4 ≤ (load db env fonts fbs).inner.length := by
  refine ⟨?_, ?_, ?_, ?_⟩
  · intro hdef hq
    unfold find_font
    simp only [hdef, Bool.false_eq_true, if_false, hq]
    rfl
  · intro hdef hq hfs hor
    unfold find_font
    simp only [hdef, Bool.false_eq_true, if_false, hq, hfs, hor]
    rfl
  · intro hdef hq hfs hor hpar
    unfold find_font
    simp only [hdef, Bool.false_eq_true, if_false, hq, hfs, hor, hpar]
  · rw [load_inner_eq]
    simp only [List.length_append, List.length_cons, List.length_nil]
    omega

/-- C6 witness: with an index on which every query fails, a configured spec
gets the weight/style-selected embedded face with the diagnostic, and a
whole catalog load still has at least four slots. -/
theorem find_font_fallback_behavior_witness :
    find_font dbNone envNone sQ =
      (embeddedFace (selectEmbedded 400 FontStyleSpec.normal), true, some sQ) ∧
    4 ≤ (load dbNone envNone fontsPlain []).inner.length := by
  have h := find_font_fallback_behavior dbNone envNone sQ 0 0 0 0 fontsPlain []
  exact ⟨h.1 (by decide) rfl, h.2.2.2⟩

/-- C7: after `load`, the face sequence is exactly the regular, italic,
bold and bold-italic faces in slots 0-3, then the non-emoji fallbacks in
list order, then the extras in list order, then the embedded symbol face
appended unconditionally as the last slot; emoji-flagged fallback families
appear only in the lazy registry, never in the loaded sequence. -/
theorem load_slot_order (db : Database) (env : Env) (fonts : SugarloafFonts)
    (fbs : List Fallback) :
    (load db env fonts fbs).inner =
      [(find_font db env (overwriteFamily fonts).regular).1,
       (find_font db env (overwriteFamily fonts).italic).1,
       (find_font db env (overwriteFamily fonts).bold).1,
       (find_font db env (overwriteFamily fonts).bold_italic).1]
      ++ (fbs.filter (fun fb => !fb.is_emoji)).map
          (fun fb => (find_font db env ⟨fb.family, none, none⟩).1)
      ++ (overwriteFamily fonts).extras.map (fun e => (find_font db env e).1)
      ++ [embeddedFace EmbeddedFont.symbolsNerdFontMono] ∧
    (load db env fonts fbs).lazy_inner =
      fbs.filterMap
        (fun fb => if fb.is_emoji then
          (find_font_path db fb.family).map
            (fun p => (⟨p, true⟩ : FontDataRef)) else none) :=
  ⟨load_inner_eq db env fonts fbs, load_lazy_eq db env fonts fbs⟩

/-- C8: each cell processed by the update loop emits exactly one glyph
section and exactly one background rectangle, the latter ahead of any cursor
or decoration overlay, and the background width for repeat count `k` is
`(k+1)` times the width the same cell would get with repeat count 0. -/
theorem update_cell_emission (tree : SugarTree) (uw : Char → Option Nat)
    (st : Elementary) (x : ℚ) (frag : Fragment) :
    ((processCell tree uw (st, x) frag).1.sections).length =
      st.sections.length + 1 ∧
    (processCell tree uw (st, x) frag).1.rects =
      st.rects ++ (cellBg tree uw st x frag ::
        (cellOverlay tree uw st x frag ++ cellDecoration tree uw st x frag)) ∧
    (cellBg tree uw st x frag).size.1 =
      ((frag.repeated : ℚ) + 1) *
        (cellBg tree uw st x { frag with repeated := 0 }).size.1 := by
  refine ⟨?_, processCell_rects tree uw st x frag, ?_⟩
  · rw [processCell_sections]
    simp
  · show (cellLocals tree uw st x frag).width_bound *
        (cellLocals tree uw st x frag).quantity =
      ((frag.repeated : ℚ) + 1) *
        ((cellLocals tree uw st x { frag with repeated := 0 }).width_bound *
         (cellLocals tree uw st x { frag with repeated := 0 }).quantity)
    have hw : (cellLocals tree uw st x { frag with repeated := 0 }).width_bound
        = (cellLocals tree uw st x frag).width_bound := rfl
    have hq0 : (cellLocals tree uw st x { frag with repeated := 0 }).quantity
        = 1 := by
      show (((0 : Nat) : ℚ) + 1) = 1
      norm_num
    have hq : (cellLocals tree uw st x frag).quantity =
        ((frag.repeated : ℚ) + 1) := rfl
    rw [hw, hq0, hq]
    ring

/-- C9: after the background rectangle, the loop emits exactly one overlay
rectangle in the cursor's colour: the full cell for a block cursor, a bar of
2% of the cell width for a caret, and a bar placed `font_size - 2.5` below
the cell top (near the text baseline, 10% of the cell width) for an
underline cursor; a disabled cursor emits no overlay. -/
theorem update_cursor_overlay (tree : SugarTree) (uw : Char → Option Nat)
    (st : Elementary) (x : ℚ) (frag : Fragment) :
    (processCell tree uw (st, x) frag).1.rects =
      st.rects ++ (cellBg tree uw st x frag ::
        (cellOverlay tree uw st x frag ++ cellDecoration tree uw st x frag)) ∧
    (match frag.cursor with
     | FragmentCursor.disabled => cellOverlay tree uw st x frag = []
     | FragmentCursor.block c =>
       cellOverlay tree uw st x frag =
         [⟨(cellBg tree uw st x frag).position, c,
           (cellBg tree uw st x frag).size⟩]
     | FragmentCursor.caret c =>
       cellOverlay tree uw st x frag =
         [⟨(cellBg tree uw st x frag).position, c,
           ((0.02 : ℚ) * (cellBg tree uw st x frag).size.1,
            (cellBg tree uw st x frag).size.2)⟩]
     | FragmentCursor.underline c =>
       cellOverlay tree uw st x frag =
         [⟨((cellBg tree uw st x frag).position.1,
            (cellBg tree uw st x frag).position.2 +
              tree.layout.font_size - (2.5 : ℚ)), c,
           ((0.1 : ℚ) * (cellBg tree uw st x frag).size.1,
            (cellBg tree uw st x frag).size.2)⟩]) := by
  have hmul : ∀ wb c q : ℚ, (wb * c) * q = c * (wb * q) := by
    intro wb c q
    ring
  refine ⟨processCell_rects tree uw st x frag, ?_⟩
  cases hcur : frag.cursor with
  | disabled =>
    simp [cellOverlay, hcur, cursor_rects]
  | block c =>
    simp [cellOverlay, hcur, cursor_rects, cellBg]
  | caret c =>
    simp only [cellOverlay, hcur, cursor_rects, cellBg]
    rw [hmul]
  | underline c =>
    simp only [cellOverlay, hcur, cursor_rects, cellBg]
    rw [hmul]

/-- C10: a resolution through the lazy emoji load returns the catalog length
as the slot id; no face is pushed onto the loaded sequence, so indexing the
catalog at that id (`font_by_id`) is out of bounds; the loaded face is
reachable only through the resolver's cache when its charmap covers the
cluster, and is not cached at all (the state is unchanged) when it does not,
though the id is returned either way. -/
theorem map_cluster_lazy_slot_out_of_bounds (ctx : FontContext)
    (cluster : Cluster) (library : FontLibraryData) (env : Env)
    (style : FragmentStyle) (now : Nat) (r : FontDataRef) (fd : FontData)
    (hstyle : (style.fstyle == SwashStyle.italic || style.weight == 700) =
      false)
    (hemoji : cluster.is_emoji = true)
    (hhit : emojiHit ctx cluster now = none)
    (hfind : library.lazy_inner.find? (fun x => x.is_emoji) = some r)
    (hload : load_from_data_ref env r = some fd) :
    (map_cluster ctx cluster library env style now).slot =
      some library.inner.length ∧
    font_by_id library library.inner.length = none ∧
    (fd.covers cluster = true →
      (map_cluster ctx cluster library env style now).ctx.cached.lookup
        library.inner.length = some fd ∧
      (map_cluster ctx cluster library env style now).ctx.emoji =
        some library.inner.length) ∧
    (fd.covers cluster = false →
      (map_cluster ctx cluster library env style now).ctx = ctx) := by
  have hstep : emojiStep ctx cluster library env now =
      emojiLoad ctx cluster library env now := by
    unfold emojiStep
    simp only [hemoji, if_true, hhit]
  have hoob : font_by_id library library.inner.length = none := by
    unfold font_by_id
    exact List.get?_eq_none.mpr le_rfl
  cases hcov : fd.covers cluster with
  | true =>
    have hl : emojiLoad ctx cluster library env now =
        some ⟨some library.inner.length,
          ⟨cacheInsert ctx.cached library.inner.length fd,
           some library.inner.length, some now⟩,
          some fd.synth, false⟩ := by
      simp [emojiLoad, hfind, hload, hcov]
    rw [map_cluster_eq_emojiStep ctx cluster library env style now _
      hstyle (hstep.trans hl)]
    refine ⟨rfl, hoob, fun _ => ⟨?_, rfl⟩, fun hcf => absurd hcf (by decide)⟩
    dsimp only
    rw [lookup_cacheInsert]
    simp
  | false =>
    have hl : emojiLoad ctx cluster library env now =
        some ⟨some library.inner.length, ctx, none, false⟩ := by
      simp [emojiLoad, hfind, hload, hcov]
    rw [map_cluster_eq_emojiStep ctx cluster library env style now _
      hstyle (hstep.trans hl)]
    exact ⟨rfl, hoob, fun hct => absurd hct (by decide), fun _ => rfl⟩

/-- C10 witness: the concrete cold emoji resolution returns slot 1 on a
one-face catalog, and `font_by_id` at slot 1 is out of bounds. -/
theorem map_cluster_lazy_slot_out_of_bounds_witness :
    (map_cluster ctxEmpty cEmoji lib1 envEmoji styleRegular 0).slot =
      some 1 ∧
    font_by_id lib1 1 = none := by
  have h := map_cluster_lazy_slot_out_of_bounds ctxEmpty cEmoji lib1 envEmoji
    styleRegular 0 ⟨5, true⟩ emojiFace (by decide) rfl rfl rfl rfl
  exact ⟨h.1, h.2.1⟩

end Rio
